import Mathlib

/-!
Verification model of the metadata build & registry-synchronization subsystem
(`buildMetadata` command: orchestrator, `writeMetadataToFile`, `addStaticImport`
and its two tree edits, key derivation). The registry source file is embedded
as a small syntax-tree datatype mirroring the ESTree node shapes the transform
inspects; file writes are tracked as explicit state. Helpers that the
script imports from elsewhere in the repository (`pascalCase`, `sortEntries`, the
`Protocol`/`Chain` symbol tables) are modelled from the spec, as marked.
-/

/-- An identifier node (`n.Identifier`): carries its `name`. -/
structure Ident where
  name : String

/-- An import specifier: `local` is the bound identifier, possibly absent
(`specifier.local?.name` in the source is an optional access). -/
structure ImportSpecifier where
  localId : Option Ident

/-- Expression nodes, restricted to the shapes `addAdapterMetadataEntry`
inspects or builds; every other expression is an opaque `otherExpr`. -/
inductive Expr where
  | identE (i : Ident)
  | stringLit (s : String)
  | arrayExpr (elements : List Expr)
  | newExpr (callee : Expr) (arguments : List Expr)
  | callExpr (callee : Expr) (arguments : List Expr)
  | memberExpr (objectE : Expr) (property : Ident)
  | objectExpr (properties : List (String × Expr))
  | otherExpr (tag : Nat)

/-- A variable declarator: `id` pattern and optional initializer. -/
structure VariableDeclarator where
  id : Expr
  init : Option Expr

/-- Top-level statements of the registry source program: import declarations,
variable declarations (lists of declarators), and opaque other statements. -/
inductive Statement where
  | importDecl (specifiers : List ImportSpecifier) (source : String)
  | varDecl (declarations : List VariableDeclarator)
  | otherStmt (tag : Nat)

/-- The parsed registry source file (`n.Program`): its top-level body. -/
structure Program where
  body : List Statement

/-- Errors the transform and orchestrator can raise. `typeError` models the
JavaScript TypeError from dereferencing `specifiers[0]` when the specifier
list is empty; `incorrectlyTypedMetadataFiles` models
`throw new Error('Incorrectly typed MetadataFiles new Map expression')`. -/
inductive Err where
  | typeError
  | incorrectlyTypedMetadataFiles
  | providerMissing (chainId : Nat)
  | adapterError (msg : String)

/-- Split a character list on dashes (kernel-reducible helper for
`pascalCase`). -/
def splitOnDash : List Char → List (List Char)
  | [] => [[]]
  | c :: cs =>
    if c = '-' then [] :: splitOnDash cs
    else
      match splitOnDash cs with
      | [] => [[c]]
      | w :: ws => (c :: w) :: ws

/-- Upper-case an ASCII letter (kernel-reducible helper for `pascalCase`). -/
def upChar (c : Char) : Char :=
  if 97 ≤ c.toNat && c.toNat ≤ 122 then Char.ofNat (c.toNat - 32) else c

/-- Capitalize the first character of a word. -/
def capitalizeWord : List Char → List Char
  | [] => []
  | c :: cs => upChar c :: cs

/-- Modelled from the spec: `pascalCase` (core/utils/caseConversion, not under
src/) — the fixed word-casing convention: split the identifier on dashes and
capitalize each word. -/
def pascalCase (s : String) : String :=
  String.mk (List.flatten ((splitOnDash s.data).map capitalizeWord))

/-- The generated identifier name of a MetadataKey: the concatenation
`protocolKey + pascalCase(productId) + chainKey + pascalCase(fileKey)`
(spec section 4.1). -/
def genIdent (protocolKey productId chainKey fileKey : String) : String :=
  protocolKey ++ pascalCase productId ++ chainKey ++ pascalCase fileKey

/-- The identifier template as written in the import-lookup predicate of
`addAdapterMetadataImport` (line 299). -/
def importLookupIdent (protocolKey productId chainKey fileKey : String) : String :=
  protocolKey ++ pascalCase productId ++ chainKey ++ pascalCase fileKey

/-- The identifier template as written in `buildImportAdapterMetadataEntry`
(lines 338-341). -/
def importDeclIdent (protocolKey productId chainKey fileKey : String) : String :=
  protocolKey ++ pascalCase productId ++ chainKey ++ pascalCase fileKey

/-- The identifier template as written in the registry-entry lookup predicate
of `addAdapterMetadataEntry` (line 389). -/
def entryLookupIdent (protocolKey productId chainKey fileKey : String) : String :=
  protocolKey ++ pascalCase productId ++ chainKey ++ pascalCase fileKey

/-- The identifier template as written for the new registry entry's value
identifier in `addAdapterMetadataEntry` (line 422). -/
def entryValueIdent (protocolKey productId chainKey fileKey : String) : String :=
  protocolKey ++ pascalCase productId ++ chainKey ++ pascalCase fileKey

/-- `n.ImportDeclaration.check` as used by the lodash partition predicate. -/
def isImportDecl : Statement → Bool
  | .importDecl _ _ => true
  | _ => false

/-- The `importNodes.find(...)` scan of `addAdapterMetadataImport`: walks the
list left to right; for an import declaration it evaluates
`x.specifiers![0]!.local?.name === genId`, which dereferences `specifiers[0]`
without a guard — an empty specifier list raises a TypeError. -/
def findMetadataImportEntry (gid : String) : List Statement → Except Err (Option Statement)
  | [] => Except.ok none
  | x :: rest =>
    match x with
    | .importDecl specifiers src =>
      match specifiers with
      | [] => Except.error Err.typeError
      | s :: restSpecs =>
        if (s.localId.map Ident.name) = some gid then
          Except.ok (some (Statement.importDecl (s :: restSpecs) src))
        else findMetadataImportEntry gid rest
    | _ => findMetadataImportEntry gid rest

/-- `buildImportAdapterMetadataEntry`: a new default-import statement binding
the generated identifier to the artifact's relative path. -/
def buildImportAdapterMetadataEntry (protocolKey protocolId productId chainKey chainName fileKey : String) : Statement :=
  Statement.importDecl
    [ImportSpecifier.mk (some (Ident.mk (importDeclIdent protocolKey productId chainKey fileKey)))]
    ("../../adapters/" ++ protocolId ++ "/products/" ++ productId ++ "/metadata/" ++
      chainName ++ "." ++ fileKey ++ ".json")

/-- `addAdapterMetadataImport`: lodash-partition the body into import
declarations and everything else (both order-preserving), search the imports
for one bound to the generated identifier; if found return the program
unchanged, otherwise splice the new import between the import run and the
rest. -/
def addAdapterMetadataImport (programNode : Program)
    (protocolKey protocolId productId chainKey chainName fileKey : String) :
    Except Err Program := do
  let importNodes := programNode.body.filter isImportDecl
  let codeAfterImports := programNode.body.filter (fun s => !isImportDecl s)
  let metadataImportEntry ← findMetadataImportEntry
    (importLookupIdent protocolKey productId chainKey fileKey) importNodes
  match metadataImportEntry with
  | some _ => Except.ok programNode
  | none =>
    Except.ok (Program.mk (importNodes ++
      [buildImportAdapterMetadataEntry protocolKey protocolId productId chainKey chainName fileKey] ++
      codeAfterImports))

/-- The registry-entry lookup predicate (lines 378-391): the element must be a
2-element array whose second element is an identifier named like the
generated identifier. -/
def entryMatches (gid : String) : Expr → Bool
  | .arrayExpr elements =>
    match elements with
    | [_, .identE i] => i.name == gid
    | _ => false
  | _ => false

/-- The key extractor passed to `sortEntries` (line 434): the name of the
second element of each pair. The source casts unconditionally, assuming every
element is a well-formed pair; the fallback "" is never hit on the
well-formed arrays the claims quantify over. -/
def entryKeyFn : Expr → String
  | .arrayExpr elements =>
    match elements.get? 1 with
    | some (.identE i) => i.name
    | _ => ""
  | _ => ""

/-- Modelled from the spec: `sortEntries` (scripts/utils/sortEntries, not
under src/) — the RegistrySortingRule: a stable sort of the registry-array
elements keyed by the generated identifier name (case-sensitive string
comparison, stable for ties). -/
def sortEntries (elements : List Expr) (keyExtractor : Expr → String) : List Expr :=
  List.insertionSort (fun a b => keyExtractor a ≤ keyExtractor b) elements

/-- The new registry pair built by `addAdapterMetadataEntry` (lines 397-428):
`[metadataKey({protocolId, productId, chainId, fileKey}), <generated ident>]`
with protocolId/chainId referencing the Protocol/Chain symbol tables. -/
def buildNewMetadataEntry (protocolKey productId chainKey fileKey : String) : Expr :=
  Expr.arrayExpr
    [Expr.callExpr (Expr.identE (Ident.mk "metadataKey"))
      [Expr.objectExpr
        [("protocolId", Expr.memberExpr (Expr.identE (Ident.mk "Protocol")) (Ident.mk protocolKey)),
         ("productId", Expr.stringLit productId),
         ("chainId", Expr.memberExpr (Expr.identE (Ident.mk "Chain")) (Ident.mk chainKey)),
         ("fileKey", Expr.stringLit fileKey)]],
     Expr.identE (Ident.mk (entryValueIdent protocolKey productId chainKey fileKey))]

/-- `addAdapterMetadataEntry`: requires the declarator's initializer to be a
new-expression whose first argument is an array expression, else throws
`Incorrectly typed MetadataFiles new Map expression`; skips if a pair with
the generated identifier already exists; otherwise pushes the new pair and
re-sorts the whole array. -/
def addAdapterMetadataEntry (metadataFilesDeclaratorNode : VariableDeclarator)
    (protocolKey productId chainKey fileKey : String) :
    Except Err VariableDeclarator :=
  match metadataFilesDeclaratorNode.init with
  | some (.newExpr callee (Expr.arrayExpr elements :: restArgs)) =>
    match elements.find? (entryMatches (entryLookupIdent protocolKey productId chainKey fileKey)) with
    | some _ => Except.ok metadataFilesDeclaratorNode
    | none =>
      let newMetadataEntry := buildNewMetadataEntry protocolKey productId chainKey fileKey
      Except.ok (VariableDeclarator.mk metadataFilesDeclaratorNode.id
        (some (Expr.newExpr callee
          (Expr.arrayExpr (sortEntries (elements ++ [newMetadataEntry]) entryKeyFn) :: restArgs))))
  | _ => Except.error Err.incorrectlyTypedMetadataFiles

/-- Whether a declarator's id is the identifier `MetadataFiles`
(`n.Identifier.check(node.id) && node.id.name === 'MetadataFiles'`). -/
def isMetadataFilesDecl (d : VariableDeclarator) : Bool :=
  match d.id with
  | .identE i => i.name == "MetadataFiles"
  | _ => false

/-- The `visitVariableDeclarator` step applied to one declarator: declarators
whose id is not the identifier `MetadataFiles` are skipped. -/
def transformDeclarator (protocolKey productId chainKey fileKey : String)
    (d : VariableDeclarator) : Except Err VariableDeclarator :=
  if isMetadataFilesDecl d then
    addAdapterMetadataEntry d protocolKey productId chainKey fileKey
  else Except.ok d

/-- Sequential effectful map, modelling the left-to-right AST visit where a
thrown error aborts the whole traversal. -/
def exceptMap (f : α → Except Err β) : List α → Except Err (List β)
  | [] => Except.ok []
  | a :: l => do
    let b ← f a
    let bs ← exceptMap f l
    Except.ok (b :: bs)

/-- The declarator visit applied to one top-level statement. -/
def transformStatement (protocolKey productId chainKey fileKey : String) :
    Statement → Except Err Statement
  | .varDecl ds => do
    let ds2 ← exceptMap (transformDeclarator protocolKey productId chainKey fileKey) ds
    Except.ok (Statement.varDecl ds2)
  | s => Except.ok s

/-- The in-memory tree transform of `addStaticImport` (lines 226-261): the
program visit performs the import-section edit first, then every variable
declarator is visited (on the updated body) and the registry-entry edit runs
for each `MetadataFiles` declarator. Any throw escapes before the
serialize-and-write step. -/
def applyRegistryEdits (prog : Program)
    (protocolKey protocolId productId chainKey chainName fileKey : String) :
    Except Err Program := do
  let prog1 ← addAdapterMetadataImport prog protocolKey protocolId productId chainKey chainName fileKey
  let body2 ← exceptMap (transformStatement protocolKey productId chainKey fileKey) prog1.body
  Except.ok (Program.mk body2)

/-- The on-disk effect of `addStaticImport` on the registry file: the file is
overwritten only by the single `writeAndLintFile` call after all in-memory
edits succeed; a throw leaves the disk content untouched. -/
def runRegistryTransform (disk : Program)
    (protocolKey protocolId productId chainKey chainName fileKey : String) : Program :=
  match applyRegistryEdits disk protocolKey protocolId productId chainKey chainName fileKey with
  | Except.ok p => p
  | Except.error _ => disk

/-- Modelled from the spec: the `Protocol` symbol table (adapters/protocols,
not under src/) — a closed, stable enumeration with a name↔value bijection;
only the members exercised here are listed. Pairs are (symbolic key, id). -/
def protocolTable : List (String × String) :=
  [("AaveV2", "aave-v2"), ("Stargate", "stargate"), ("UniswapV3", "uniswap-v3")]

/-- The reverse lookup `Object.keys(Protocol).find(k => Protocol[k] === protocolId)`. -/
def protocolKeyOf (protocolId : String) : Option String :=
  (protocolTable.find? (fun e => e.2 == protocolId)).map (fun e => e.1)

/-- Modelled from the spec: the `Chain` symbol table (core/constants/chains,
not under src/) — pairs are (symbolic key, chain id). -/
def chainTable : List (String × Nat) :=
  [("Ethereum", 1), ("Optimism", 10), ("Arbitrum", 42161), ("Linea", 59144)]

/-- The reverse lookup `Object.keys(Chain).find(k => Chain[k] === chainId)`. -/
def chainKeyOf (chainId : Nat) : Option String :=
  (chainTable.find? (fun e => e.2 == chainId)).map (fun e => e.1)

/-- Modelled from the spec: the `ChainName` table (core/constants/chains, not
under src/) — chain id to lowercase chain name. -/
def chainNameTable : List (Nat × String) :=
  [(1, "ethereum"), (10, "optimism"), (42161, "arbitrum"), (59144, "linea")]

/-- `ChainName[chainId]`; a missing key interpolates as "undefined" in a
JavaScript template string. -/
def ChainName (chainId : Nat) : String :=
  ((chainNameTable.find? (fun e => e.1 == chainId)).map (fun e => e.2)).getD "undefined"

/-- JavaScript template-string interpolation of a possibly-undefined value. -/
def templateStr : Option String → String
  | some s => s
  | none => "undefined"

/-- A JSON-compatible metadata payload tree. -/
inductive Json where
  | str (s : String)
  | num (n : Int)
  | bool (b : Bool)
  | nullJ
  | arr (xs : List Json)
  | obj (fields : List (String × Json))

/-- The file-identifying keys returned with a metadata payload
(`fileDetails`). Protocol ids are their string values; chain ids numbers. -/
structure FileDetails where
  protocolId : String
  productId : String
  chainId : Nat
  fileKey : String

/-- The artifact path template of `writeMetadataToFile` (line 192). The
`path.resolve` prefix is kept as the relative template text. -/
def metadataFilePath (fd : FileDetails) : String :=
  "./packages/adapters-library/src/adapters/" ++ fd.protocolId ++ "/products/" ++
    fd.productId ++ "/metadata/" ++ ChainName fd.chainId ++ "." ++ fd.fileKey ++ ".json"

/-- The fixed artifact path template named by the spec:
`adapters/<protocolId>/products/<productId>/metadata/<chainName>.<fileKey>.json`. -/
def artifactPathTemplate (protocolId productId : String) (chainId : Nat) (fileKey : String) : String :=
  "adapters/" ++ protocolId ++ "/products/" ++ productId ++ "/metadata/" ++
    ChainName chainId ++ "." ++ fileKey ++ ".json"

/-- A filesystem abstraction: association of paths to artifact payloads.
`writeAndLintFile` (not under src/) is abstracted to overwrite-or-create;
the textual JSON rendering is abstracted to the payload itself. -/
def writeFile (files : List (String × Json)) (p : String) (c : Json) : List (String × Json) :=
  if files.any (fun e => e.1 == p) then
    files.map (fun e => if e.1 == p then (p, c) else e)
  else files ++ [(p, c)]

/-- `writeMetadataToFile`: persist the payload at the derived artifact path. -/
def writeMetadataToFile (files : List (String × Json)) (fd : FileDetails) (metadata : Json) :
    List (String × Json) :=
  writeFile files (metadataFilePath fd) metadata

/-- `addStaticImport` at file-details level (lines 198-264): compute the
protocol and chain symbolic keys by reverse lookup, then apply the two tree
edits to the registry program. -/
def addStaticImport (registry : Program) (fd : FileDetails) : Except Err Program :=
  let protocolKey := templateStr (protocolKeyOf fd.protocolId)
  let chainKey := templateStr (chainKeyOf fd.chainId)
  applyRegistryEdits registry protocolKey fd.protocolId fd.productId chainKey
    (ChainName fd.chainId) fd.fileKey

/-- Outcome of awaiting one metadata-producing capability: resolves with a
payload, rejects with `NotImplementedError` (caught, yielding undefined), or
rejects with any other error (propagated). -/
inductive CapOutcome where
  | notImplemented
  | failed (msg : String)
  | produced (metadata : Json) (fileDetails : FileDetails)

/-- One protocol adapter as the orchestrator sees it: its settings version,
the `getProtocolTokens(true)` outcome used when `version === 2`, and the
`buildMetadata(true)` outcome used when `isIMetadataBuilder` holds. -/
structure Adapter where
  version : Nat
  getProtocolTokens : CapOutcome
  isMetadataBuilder : Bool
  buildMetadata : CapOutcome

/-- Lines 72-130: compute `metadataDetails` for one adapter. Both branches
assign (the second overwrites the first); `NotImplementedError` is caught and
leaves undefined; any other rejection is rethrown. -/
def resolveMetadata (a : Adapter) : Except Err (Option (Json × FileDetails)) := do
  let md0 : Option (Json × FileDetails) := none
  let md1 ← if a.version = 2 then
      match a.getProtocolTokens with
      | CapOutcome.notImplemented => Except.ok none
      | CapOutcome.failed msg => Except.error (Err.adapterError msg)
      | CapOutcome.produced m fd => Except.ok (some (m, fd))
    else Except.ok md0
  let md2 ← if a.isMetadataBuilder then
      match a.buildMetadata with
      | CapOutcome.notImplemented => Except.ok none
      | CapOutcome.failed msg => Except.error (Err.adapterError msg)
      | CapOutcome.produced m fd => Except.ok (some (m, fd))
    else Except.ok md1
  Except.ok md2

/-- The four `console.error` reports of the checksum gate (lines 137-153):
all offending values joined together, then the three fixed messages. -/
def checksumReport (invalidAddresses : List String) : List String :=
  [String.intercalate "\n" invalidAddresses,
   "\n * The above addresses found in the metadata file are not in checksum format.",
   "\n * Please ensure that addresses are in checksum format by wrapping them with getAddress from the ethers package.",
   "\n * Please checksum your addresses inside the buildMetadata() method."]

/-- How a build run ends: the loops completed, the checksum gate returned, or
an error was thrown. -/
inductive RunEnd where
  | completed
  | gateAbort
  | thrown (e : Err)

/-- The persistent state a run mutates: artifact files, the registry source
file, and the standard-error log. -/
structure RunState where
  artifacts : List (String × Json)
  registry : Program
  errorLog : List String

/-- The inner adapter loop (lines 71-163), parametrized by the
`getMetadataInvalidAddresses` validator (scripts/addressValidation, consumed
but not under src/). Per adapter: resolve metadata (errors propagate,
undefined continues), run the checksum gate (non-empty report returns from
the whole command), write the artifact, then update the registry via
`addStaticImport` re-reading the current registry state. -/
def processAdapters (validator : Json → List String) :
    RunState → List Adapter → RunState × RunEnd
  | st, [] => (st, RunEnd.completed)
  | st, a :: rest =>
    match resolveMetadata a with
    | Except.error e => (st, RunEnd.thrown e)
    | Except.ok none => processAdapters validator st rest
    | Except.ok (some (metadata, fd)) =>
      let invalidAddresses := validator metadata
      if 0 < invalidAddresses.length then
        (RunState.mk st.artifacts st.registry (st.errorLog ++ checksumReport invalidAddresses),
          RunEnd.gateAbort)
      else
        let artifacts1 := writeMetadataToFile st.artifacts fd metadata
        match addStaticImport st.registry fd with
        | Except.error e => (RunState.mk artifacts1 st.registry st.errorLog, RunEnd.thrown e)
        | Except.ok registry1 =>
          processAdapters validator (RunState.mk artifacts1 registry1 st.errorLog) rest

/-- The caller-supplied filters and chain providers of the command. -/
structure BuildConfig where
  filterProtocolIds : Option (List String)
  filterChainIds : Option (List Nat)
  providers : Nat → Bool

/-- `filterProtocolIds && !filterProtocolIds.includes(protocolId)`. -/
def protocolFilteredOut (f : Option (List String)) (protocolId : String) : Bool :=
  match f with
  | none => false
  | some l => !(l.contains protocolId)

/-- `filterChainIds && !filterChainIds.includes(chainId)`. -/
def chainFilteredOut (f : Option (List Nat)) (chainId : Nat) : Bool :=
  match f with
  | none => false
  | some l => !(l.contains chainId)

/-- The chain loop (lines 55-164): skip filtered chains, throw
`ProviderMissingError` when no provider is configured, else run the adapter
loop; any non-completed end stops the whole command. -/
def processChains (validator : Json → List String) (cfg : BuildConfig) :
    RunState → List (Nat × List Adapter) → RunState × RunEnd
  | st, [] => (st, RunEnd.completed)
  | st, (chainId, adapters) :: rest =>
    if chainFilteredOut cfg.filterChainIds chainId then
      processChains validator cfg st rest
    else if !(cfg.providers chainId) then
      (st, RunEnd.thrown (Err.providerMissing chainId))
    else
      match processAdapters validator st adapters with
      | (st1, RunEnd.completed) => processChains validator cfg st1 rest
      | (st1, e) => (st1, e)

/-- The protocol loop (lines 47-165): skip filtered protocols, else run the
chain loop; any non-completed end stops the whole command. -/
def processProtocols (validator : Json → List String) (cfg : BuildConfig) :
    RunState → List (String × List (Nat × List Adapter)) → RunState × RunEnd
  | st, [] => (st, RunEnd.completed)
  | st, (protocolId, supportedChains) :: rest =>
    if protocolFilteredOut cfg.filterProtocolIds protocolId then
      processProtocols validator cfg st rest
    else
      match processChains validator cfg st supportedChains with
      | (st1, RunEnd.completed) => processProtocols validator cfg st1 rest
      | (st1, e) => (st1, e)

/-- Whether a statement is an import declaration with at least one specifier
(the totality precondition of the unguarded `specifiers[0]` dereference);
non-imports count as harmless. -/
def importHasSpecifier : Statement → Bool
  | .importDecl [] _ => false
  | _ => true

/-- Whether an import statement's first specifier binds the given name
(`x.specifiers[0].local?.name === gid`). -/
def importBindsIdent (gid : String) : Statement → Bool
  | .importDecl (s :: _) _ =>
    match s.localId with
    | some i => i.name == gid
    | none => false
  | _ => false

/-- Whether a declarator's initializer has the expected
new-map-from-array-of-pairs shape. -/
def initWellShaped (d : VariableDeclarator) : Bool :=
  match d.init with
  | some (.newExpr _ (Expr.arrayExpr _ :: _)) => true
  | _ => false

/-- Whether a declarator has the expected shape and its entry array already
contains a pair whose value identifier is `gid`. -/
def declaratorHasEntry (gid : String) (d : VariableDeclarator) : Bool :=
  match d.init with
  | some (.newExpr _ (Expr.arrayExpr elements :: _)) => elements.any (entryMatches gid)
  | _ => false

/-- Whether a statement contains a `MetadataFiles` declarator whose
initializer does not have the expected shape. -/
def stmtHasBadMetadataFiles : Statement → Bool
  | .varDecl ds => ds.any (fun d => isMetadataFilesDecl d && !(initWellShaped d))
  | _ => false

/-- Whether every `MetadataFiles` declarator of a statement already carries
the entry for `gid`. -/
def stmtEntriesRegistered (gid : String) : Statement → Bool
  | .varDecl ds => ds.all (fun d => !(isMetadataFilesDecl d) || declaratorHasEntry gid d)
  | _ => true

/-- Whether an element of the registry array is a well-formed 2-element pair
ending in a value identifier. -/
def isWellFormedPair : Expr → Bool
  | .arrayExpr [_, .identE _] => true
  | _ => false

theorem findMetadataImportEntry_ok_of_any (gid : String) :
    ∀ (l : List Statement), (∀ s ∈ l, importHasSpecifier s = true) →
      l.any (importBindsIdent gid) = true →
      ∃ x, findMetadataImportEntry gid l = Except.ok (some x) := by
  intro l
  induction l with
  | nil => intro _ h; simp at h
  | cons x rest ih =>
    intro hWF hAny
    match x with
    | Statement.importDecl [] src =>
      have := hWF _ (List.mem_cons_self _ _)
      simp [importHasSpecifier] at this
    | Statement.importDecl (s :: restSpecs) src =>
      by_cases hb : (s.localId.map Ident.name) = some gid
      · exact ⟨Statement.importDecl (s :: restSpecs) src,
          by simp [findMetadataImportEntry, hb]⟩
      · have hb2 : importBindsIdent gid (Statement.importDecl (s :: restSpecs) src) = false := by
          match hs : s.localId with
          | none => simp [importBindsIdent, hs]
          | some i =>
            simp [importBindsIdent, hs]
            intro hcon
            exact hb (by simp [hs, hcon])
        have hAny2 : rest.any (importBindsIdent gid) = true := by
          simp only [List.any_cons, hb2, Bool.false_or] at hAny
          exact hAny
        obtain ⟨y, hy⟩ := ih (fun s hs => hWF s (List.mem_cons_of_mem _ hs)) hAny2
        exact ⟨y, by simp [findMetadataImportEntry, hb, hy]⟩
    | Statement.varDecl ds =>
      have hAny2 : rest.any (importBindsIdent gid) = true := by
        simp only [List.any_cons, importBindsIdent, Bool.false_or] at hAny
        exact hAny
      obtain ⟨y, hy⟩ := ih (fun s hs => hWF s (List.mem_cons_of_mem _ hs)) hAny2
      exact ⟨y, by simp [findMetadataImportEntry, hy]⟩
    | Statement.otherStmt t =>
      have hAny2 : rest.any (importBindsIdent gid) = true := by
        simp only [List.any_cons, importBindsIdent, Bool.false_or] at hAny
        exact hAny
      obtain ⟨y, hy⟩ := ih (fun s hs => hWF s (List.mem_cons_of_mem _ hs)) hAny2
      exact ⟨y, by simp [findMetadataImportEntry, hy]⟩

theorem findMetadataImportEntry_none (gid : String) :
    ∀ (l : List Statement), (∀ s ∈ l, importHasSpecifier s = true) →
      (∀ s ∈ l, importBindsIdent gid s = false) →
      findMetadataImportEntry gid l = Except.ok none := by
  intro l
  induction l with
  | nil => intro _ _; rfl
  | cons x rest ih =>
    intro hWF hNo
    have ihr := ih (fun s hs => hWF s (List.mem_cons_of_mem _ hs))
      (fun s hs => hNo s (List.mem_cons_of_mem _ hs))
    match x with
    | Statement.importDecl [] src =>
      have := hWF _ (List.mem_cons_self _ _)
      simp [importHasSpecifier] at this
    | Statement.importDecl (s :: restSpecs) src =>
      have hb := hNo _ (List.mem_cons_self _ _)
      have hb2 : ¬ (s.localId.map Ident.name) = some gid := by
        match hs : s.localId with
        | none => simp [hs]
        | some i =>
          simp [importBindsIdent, hs] at hb
          simp [hs, hb]
      simp [findMetadataImportEntry, hb2, ihr]
    | Statement.varDecl ds => simp [findMetadataImportEntry, ihr]
    | Statement.otherStmt t => simp [findMetadataImportEntry, ihr]

theorem exceptMap_cons {α β : Type} (f : α → Except Err β) (a : α) (l : List α) :
    exceptMap f (a :: l) = Except.bind (f a)
      (fun b => Except.bind (exceptMap f l) (fun bs => Except.ok (b :: bs))) := rfl

theorem exceptMap_id {α : Type} (f : α → Except Err α) :
    ∀ (l : List α), (∀ a ∈ l, f a = Except.ok a) → exceptMap f l = Except.ok l := by
  intro l
  induction l with
  | nil => intro _; rfl
  | cons a rest ih =>
    intro h
    have ha := h a (List.mem_cons_self _ _)
    have hr := ih (fun x hx => h x (List.mem_cons_of_mem _ hx))
    rw [exceptMap_cons, ha, hr]
    rfl

theorem exceptMap_error {α β : Type} (f : α → Except Err β) (c : Err) :
    ∀ (l : List α), (∀ a ∈ l, f a = Except.error c ∨ ∃ b, f a = Except.ok b) →
      (∃ a ∈ l, f a = Except.error c) → exceptMap f l = Except.error c := by
  intro l
  induction l with
  | nil => intro _ h; simp at h
  | cons a rest ih =>
    intro hdi hex
    rcases hdi a (List.mem_cons_self _ _) with ha | ⟨b, hb⟩
    · rw [exceptMap_cons, ha]; rfl
    · have hex2 : ∃ x ∈ rest, f x = Except.error c := by
        obtain ⟨x, hx, hfx⟩ := hex
        rcases List.mem_cons.mp hx with rfl | hxr
        · rw [hfx] at hb; cases hb
        · exact ⟨x, hxr, hfx⟩
      have hr := ih (fun x hx => hdi x (List.mem_cons_of_mem _ hx)) hex2
      rw [exceptMap_cons, hb, hr]
      rfl

theorem exceptMap_ok_or_error {α β : Type} (f : α → Except Err β) (c : Err) :
    ∀ (l : List α), (∀ a ∈ l, f a = Except.error c ∨ ∃ b, f a = Except.ok b) →
      (∃ bs, exceptMap f l = Except.ok bs) ∨ exceptMap f l = Except.error c := by
  intro l
  induction l with
  | nil => intro _; exact Or.inl ⟨[], rfl⟩
  | cons a rest ih =>
    intro hdi
    rcases hdi a (List.mem_cons_self _ _) with ha | ⟨b, hb⟩
    · exact Or.inr (by rw [exceptMap_cons, ha]; rfl)
    · rcases ih (fun x hx => hdi x (List.mem_cons_of_mem _ hx)) with ⟨bs, hbs⟩ | herr
      · exact Or.inl ⟨b :: bs, by rw [exceptMap_cons, hb, hbs]; rfl⟩
      · exact Or.inr (by rw [exceptMap_cons, hb, herr]; rfl)

theorem addAdapterMetadataEntry_error_of_bad (d : VariableDeclarator)
    (pk prod ck fk : String) (h : initWellShaped d = false) :
    addAdapterMetadataEntry d pk prod ck fk = Except.error Err.incorrectlyTypedMetadataFiles := by
  unfold addAdapterMetadataEntry
  split
  · rename_i callee elements restArgs heq
    rw [initWellShaped, heq] at h
    simp at h
  · rfl

theorem addAdapterMetadataEntry_noop (d : VariableDeclarator) (pk prod ck fk : String)
    (h : declaratorHasEntry (entryLookupIdent pk prod ck fk) d = true) :
    addAdapterMetadataEntry d pk prod ck fk = Except.ok d := by
  unfold addAdapterMetadataEntry
  split
  · rename_i callee elements restArgs heq
    rw [declaratorHasEntry, heq] at h
    simp only at h
    obtain ⟨x, hx, hpx⟩ := List.any_eq_true.mp h
    have : (elements.find? (entryMatches (entryLookupIdent pk prod ck fk))).isSome := by
      rw [List.find?_isSome]
      exact ⟨x, hx, hpx⟩
    match hfind : elements.find? (entryMatches (entryLookupIdent pk prod ck fk)) with
    | some y => simp
    | none => rw [hfind] at this; simp at this
  · rename_i hne
    rw [declaratorHasEntry] at h
    split at h
    · rename_i callee elements restArgs heq
      exact (hne callee elements restArgs heq).elim
    · simp at h

theorem transformDeclarator_dichotomy (pk prod ck fk : String) (d : VariableDeclarator) :
    transformDeclarator pk prod ck fk d = Except.error Err.incorrectlyTypedMetadataFiles ∨
      ∃ d2, transformDeclarator pk prod ck fk d = Except.ok d2 := by
  unfold transformDeclarator
  by_cases hm : isMetadataFilesDecl d = true
  · rw [if_pos hm]
    unfold addAdapterMetadataEntry
    split
    · rename_i callee elements restArgs heq
      match elements.find? (entryMatches (entryLookupIdent pk prod ck fk)) with
      | some y => exact Or.inr ⟨d, rfl⟩
      | none => exact Or.inr ⟨_, rfl⟩
    · exact Or.inl rfl
  · rw [if_neg hm]
    exact Or.inr ⟨d, rfl⟩

theorem transformDeclarator_error_of_bad (pk prod ck fk : String) (d : VariableDeclarator)
    (hm : isMetadataFilesDecl d = true) (hb : initWellShaped d = false) :
    transformDeclarator pk prod ck fk d = Except.error Err.incorrectlyTypedMetadataFiles := by
  unfold transformDeclarator
  rw [if_pos hm]
  exact addAdapterMetadataEntry_error_of_bad d pk prod ck fk hb

theorem transformStatement_dichotomy (pk prod ck fk : String) (s : Statement) :
    transformStatement pk prod ck fk s = Except.error Err.incorrectlyTypedMetadataFiles ∨
      ∃ s2, transformStatement pk prod ck fk s = Except.ok s2 := by
  match s with
  | Statement.importDecl specs src => exact Or.inr ⟨_, rfl⟩
  | Statement.otherStmt t => exact Or.inr ⟨_, rfl⟩
  | Statement.varDecl ds =>
    have hdi := fun d (_ : d ∈ ds) => transformDeclarator_dichotomy pk prod ck fk d
    rcases exceptMap_ok_or_error (transformDeclarator pk prod ck fk)
        Err.incorrectlyTypedMetadataFiles ds hdi with ⟨bs, hbs⟩ | herr
    · exact Or.inr ⟨Statement.varDecl bs, by
        show Except.bind (exceptMap (transformDeclarator pk prod ck fk) ds) _ = _
        rw [hbs]; rfl⟩
    · exact Or.inl (by
        show Except.bind (exceptMap (transformDeclarator pk prod ck fk) ds) _ = _
        rw [herr]; rfl)

theorem transformStatement_error_of_bad (pk prod ck fk : String) (s : Statement)
    (h : stmtHasBadMetadataFiles s = true) :
    transformStatement pk prod ck fk s = Except.error Err.incorrectlyTypedMetadataFiles := by
  match s with
  | Statement.importDecl specs src => simp [stmtHasBadMetadataFiles] at h
  | Statement.otherStmt t => simp [stmtHasBadMetadataFiles] at h
  | Statement.varDecl ds =>
    rw [stmtHasBadMetadataFiles] at h
    obtain ⟨d, hd, hpd⟩ := List.any_eq_true.mp h
    have hm : isMetadataFilesDecl d = true := by
      cases hq : isMetadataFilesDecl d with
      | true => rfl
      | false => rw [hq] at hpd; simp at hpd
    have hb : initWellShaped d = false := by
      cases hw : initWellShaped d with
      | false => rfl
      | true => rw [hw] at hpd; simp at hpd
    have herr := exceptMap_error (transformDeclarator pk prod ck fk)
      Err.incorrectlyTypedMetadataFiles ds
      (fun x _ => transformDeclarator_dichotomy pk prod ck fk x)
      ⟨d, hd, transformDeclarator_error_of_bad pk prod ck fk d hm hb⟩
    show Except.bind (exceptMap (transformDeclarator pk prod ck fk) ds) _ = _
    rw [herr]; rfl

theorem transformStatement_noop (pk prod ck fk : String) (s : Statement)
    (h : stmtEntriesRegistered (entryLookupIdent pk prod ck fk) s = true) :
    transformStatement pk prod ck fk s = Except.ok s := by
  match s with
  | Statement.importDecl specs src => rfl
  | Statement.otherStmt t => rfl
  | Statement.varDecl ds =>
    rw [stmtEntriesRegistered] at h
    have hall := List.all_eq_true.mp h
    have hid : exceptMap (transformDeclarator pk prod ck fk) ds = Except.ok ds := by
      apply exceptMap_id
      intro d hd
      have := hall d hd
      unfold transformDeclarator
      by_cases hm : isMetadataFilesDecl d = true
      · rw [if_pos hm]
        rw [hm] at this
        simp only [Bool.not_true, Bool.false_or] at this
        exact addAdapterMetadataEntry_noop d pk prod ck fk this
      · rw [if_neg hm]
    show Except.bind (exceptMap (transformDeclarator pk prod ck fk) ds) _ = _
    rw [hid]; rfl

theorem importBindsIdent_isImport (gid : String) (s : Statement)
    (h : importBindsIdent gid s = true) : isImportDecl s = true := by
  match s with
  | Statement.importDecl (sp :: rest) src => rfl
  | Statement.importDecl [] src => simp [importBindsIdent] at h
  | Statement.varDecl ds => simp [importBindsIdent] at h
  | Statement.otherStmt t => simp [importBindsIdent] at h

theorem findMetadataImportEntry_total (gid : String) :
    ∀ (l : List Statement), (∀ s ∈ l, importHasSpecifier s = true) →
      ∃ r, findMetadataImportEntry gid l = Except.ok r := by
  intro l
  induction l with
  | nil => intro _; exact ⟨none, rfl⟩
  | cons x rest ih =>
    intro hWF
    obtain ⟨r, hr⟩ := ih (fun s hs => hWF s (List.mem_cons_of_mem _ hs))
    match x with
    | Statement.importDecl [] src =>
      have := hWF _ (List.mem_cons_self _ _)
      simp [importHasSpecifier] at this
    | Statement.importDecl (s :: restSpecs) src =>
      by_cases hb : (s.localId.map Ident.name) = some gid
      · exact ⟨some (Statement.importDecl (s :: restSpecs) src),
          by simp [findMetadataImportEntry, hb]⟩
      · exact ⟨r, by simp [findMetadataImportEntry, hb, hr]⟩
    | Statement.varDecl ds => exact ⟨r, by simp [findMetadataImportEntry, hr]⟩
    | Statement.otherStmt t => exact ⟨r, by simp [findMetadataImportEntry, hr]⟩

theorem addAdapterMetadataImport_eq (prog : Program) (pk pid prod ck cn fk : String) :
    addAdapterMetadataImport prog pk pid prod ck cn fk =
      Except.bind (findMetadataImportEntry (importLookupIdent pk prod ck fk)
          (prog.body.filter isImportDecl))
        (fun r => match r with
          | some _ => Except.ok prog
          | none => Except.ok (Program.mk (prog.body.filter isImportDecl ++
              [buildImportAdapterMetadataEntry pk pid prod ck cn fk] ++
              prog.body.filter (fun s => !isImportDecl s)))) := rfl

theorem addAdapterMetadataImport_found (prog : Program) (pk pid prod ck cn fk : String)
    (hWF : ∀ s ∈ prog.body, importHasSpecifier s = true)
    (hB : prog.body.any (importBindsIdent (importLookupIdent pk prod ck fk)) = true) :
    addAdapterMetadataImport prog pk pid prod ck cn fk = Except.ok prog := by
  obtain ⟨s, hs, hbs⟩ := List.any_eq_true.mp hB
  have hsf : s ∈ prog.body.filter isImportDecl :=
    List.mem_filter.mpr ⟨hs, importBindsIdent_isImport _ s hbs⟩
  have hAnyF : (prog.body.filter isImportDecl).any
      (importBindsIdent (importLookupIdent pk prod ck fk)) = true :=
    List.any_eq_true.mpr ⟨s, hsf, hbs⟩
  obtain ⟨x, hx⟩ := findMetadataImportEntry_ok_of_any _ _
    (fun t ht => hWF t (List.mem_filter.mp ht).1) hAnyF
  rw [addAdapterMetadataImport_eq, hx]; rfl

theorem addAdapterMetadataImport_total (prog : Program) (pk pid prod ck cn fk : String)
    (hWF : ∀ s ∈ prog.body, importHasSpecifier s = true) :
    ∃ p1, addAdapterMetadataImport prog pk pid prod ck cn fk = Except.ok p1 ∧
      (∀ s ∈ prog.body, isImportDecl s = false → s ∈ p1.body) := by
  obtain ⟨r, hr⟩ := findMetadataImportEntry_total (importLookupIdent pk prod ck fk)
    (prog.body.filter isImportDecl) (fun t ht => hWF t (List.mem_filter.mp ht).1)
  match r with
  | some x =>
    refine ⟨prog, ?_, fun s hs _ => hs⟩
    rw [addAdapterMetadataImport_eq, hr]; rfl
  | none =>
    refine ⟨Program.mk (prog.body.filter isImportDecl ++
        [buildImportAdapterMetadataEntry pk pid prod ck cn fk] ++
        prog.body.filter (fun s => !isImportDecl s)), ?_, ?_⟩
    · rw [addAdapterMetadataImport_eq, hr]; rfl
    · intro s hs hni
      have : s ∈ prog.body.filter (fun t => !isImportDecl t) :=
        List.mem_filter.mpr ⟨hs, by rw [hni]; rfl⟩
      exact List.mem_append.mpr (Or.inr this)

theorem applyRegistryEdits_eq (prog : Program) (pk pid prod ck cn fk : String) :
    applyRegistryEdits prog pk pid prod ck cn fk =
      Except.bind (addAdapterMetadataImport prog pk pid prod ck cn fk)
        (fun prog1 => Except.bind (exceptMap (transformStatement pk prod ck fk) prog1.body)
          (fun body2 => Except.ok (Program.mk body2))) := rfl

theorem sortEntries_perm (l : List Expr) (key : Expr → String) :
    (sortEntries l key).Perm l :=
  List.perm_insertionSort _ l

theorem sortEntries_sorted (l : List Expr) (key : Expr → String) :
    (sortEntries l key).Pairwise (fun a b => key a ≤ key b) := by
  haveI : IsTotal Expr (fun a b => key a ≤ key b) := ⟨fun a b => le_total (key a) (key b)⟩
  haveI : IsTrans Expr (fun a b => key a ≤ key b) :=
    ⟨fun a b c h1 h2 => le_trans h1 h2⟩
  exact List.sorted_insertionSort _ l

theorem sorted_perm_eq_of_nodup_keys (key : Expr → String) :
    ∀ (xs ys : List Expr), xs.Perm ys →
      xs.Pairwise (fun a b => key a ≤ key b) →
      ys.Pairwise (fun a b => key a ≤ key b) →
      (xs.map key).Nodup → xs = ys := by
  intro xs
  induction xs with
  | nil =>
    intro ys hp _ _ _
    exact (hp.symm.eq_nil).symm
  | cons a t ih =>
    intro ys hp hpx hpy hnd
    have hnd2 : (∀ x ∈ t, ¬ key x = key a) ∧ (List.map key t).Nodup := by
      simpa using hnd
    match ys with
    | [] => exact absurd hp.eq_nil (by simp)
    | b :: u =>
      have hax : a = b := by
        rcases List.mem_cons.mp (hp.subset (List.mem_cons_self a t)) with h | hau
        · exact h
        · rcases List.mem_cons.mp (hp.symm.subset (List.mem_cons_self b u)) with h | hbt
          · exact h.symm
          · have h1 : key a ≤ key b := (List.pairwise_cons.mp hpx).1 b hbt
            have h2 : key b ≤ key a := (List.pairwise_cons.mp hpy).1 a hau
            have heq : key a = key b := le_antisymm h1 h2
            exact (hnd2.1 b hbt heq.symm).elim
      subst hax
      have htu : t.Perm u := hp.cons_inv
      have := ih u htu (List.pairwise_cons.mp hpx).2 (List.pairwise_cons.mp hpy).2 hnd2.2
      rw [this]

theorem importLookupIdent_eq (pk prod ck fk : String) :
    importLookupIdent pk prod ck fk = genIdent pk prod ck fk := rfl

theorem entryLookupIdent_eq (pk prod ck fk : String) :
    entryLookupIdent pk prod ck fk = genIdent pk prod ck fk := rfl

theorem entryValueIdent_eq (pk prod ck fk : String) :
    entryValueIdent pk prod ck fk = genIdent pk prod ck fk := rfl

/-- Claim C1: Registration is idempotent — on a registry file whose imports
all carry a specifier, when the generated identifier is already the bound
identifier of an existing import and the value identifier of an existing
`MetadataFiles` pair (in every `MetadataFiles` declarator), applying the
registry transform again for the same key returns the program unchanged: no
duplicate import statement and no duplicate map entry is added. -/
theorem registration_idempotent (prog : Program) (pk pid prod ck cn fk : String)
    (hWF : ∀ s ∈ prog.body, importHasSpecifier s = true)
    (hImp : prog.body.any (importBindsIdent (genIdent pk prod ck fk)) = true)
    (hEntry : ∀ s ∈ prog.body, stmtEntriesRegistered (genIdent pk prod ck fk) s = true) :
    applyRegistryEdits prog pk pid prod ck cn fk = Except.ok prog := by
  have h1 : addAdapterMetadataImport prog pk pid prod ck cn fk = Except.ok prog :=
    addAdapterMetadataImport_found prog pk pid prod ck cn fk hWF
      (by rw [importLookupIdent_eq]; exact hImp)
  have h2 : exceptMap (transformStatement pk prod ck fk) prog.body = Except.ok prog.body :=
    exceptMap_id _ _ (fun s hs => transformStatement_noop pk prod ck fk s
      (by rw [entryLookupIdent_eq]; exact hEntry s hs))
  rw [applyRegistryEdits_eq, h1]
  show Except.bind (exceptMap (transformStatement pk prod ck fk) prog.body) _ = _
  rw [h2]
  rfl

/-- Claim C4: Structural-mismatch atomicity — when the registry file has
well-formed imported names but some `MetadataFiles` declarator's initializer is
not a new-expression with an array-expression first argument, the transform
throws the `Incorrectly typed MetadataFiles` error before the
serialize-and-write step, so the registry file on disk is left unchanged. -/
theorem structural_mismatch_no_write (prog : Program) (pk pid prod ck cn fk : String)
    (hWF : ∀ s ∈ prog.body, importHasSpecifier s = true)
    (hBad : ∃ s ∈ prog.body, stmtHasBadMetadataFiles s = true) :
    applyRegistryEdits prog pk pid prod ck cn fk
        = Except.error Err.incorrectlyTypedMetadataFiles ∧
      runRegistryTransform prog pk pid prod ck cn fk = prog := by
  obtain ⟨p1, hp1, hmem⟩ := addAdapterMetadataImport_total prog pk pid prod ck cn fk hWF
  obtain ⟨s, hs, hbs⟩ := hBad
  have hni : isImportDecl s = false := by
    match s with
    | Statement.varDecl ds => rfl
    | Statement.importDecl sp src => simp [stmtHasBadMetadataFiles] at hbs
    | Statement.otherStmt t => simp [stmtHasBadMetadataFiles] at hbs
  have herr : exceptMap (transformStatement pk prod ck fk) p1.body
      = Except.error Err.incorrectlyTypedMetadataFiles :=
    exceptMap_error _ _ _ (fun x _ => transformStatement_dichotomy pk prod ck fk x)
      ⟨s, hmem s hs hni, transformStatement_error_of_bad pk prod ck fk s hbs⟩
  have h1 : applyRegistryEdits prog pk pid prod ck cn fk
      = Except.error Err.incorrectlyTypedMetadataFiles := by
    rw [applyRegistryEdits_eq, hp1]
    show Except.bind (exceptMap (transformStatement pk prod ck fk) p1.body) _ = _
    rw [herr]; rfl
  exact ⟨h1, by unfold runRegistryTransform; rw [h1]⟩

/-- Claim C6: Import placement — when the program body is a contiguous run
of import statements followed by non-import statements and the generated
identifier is not yet imported (all imports carrying a specifier), then
the import-section edit yields exactly the original imports, then the one new
statement binding the generated identifier to the artifact's relative path,
then the remaining statements in their original order. -/
theorem import_appended_after_import_run (imps others : List Statement)
    (pk pid prod ck cn fk : String)
    (hImps : ∀ s ∈ imps, isImportDecl s = true)
    (hOthers : ∀ s ∈ others, isImportDecl s = false)
    (hWF : ∀ s ∈ imps, importHasSpecifier s = true)
    (hNo : ∀ s ∈ imps, importBindsIdent (genIdent pk prod ck fk) s = false) :
    addAdapterMetadataImport (Program.mk (imps ++ others)) pk pid prod ck cn fk
        = Except.ok (Program.mk
            (imps ++ [buildImportAdapterMetadataEntry pk pid prod ck cn fk] ++ others)) ∧
      buildImportAdapterMetadataEntry pk pid prod ck cn fk
        = Statement.importDecl
            [ImportSpecifier.mk (some (Ident.mk (genIdent pk prod ck fk)))]
            ("../../adapters/" ++ pid ++ "/products/" ++ prod ++ "/metadata/" ++
              cn ++ "." ++ fk ++ ".json") := by
  constructor
  · have hfil1 : (imps ++ others).filter isImportDecl = imps := by
      rw [List.filter_append, List.filter_eq_self.mpr hImps,
        List.filter_eq_nil_iff.mpr (fun a ha => by rw [hOthers a ha]; exact Bool.false_ne_true),
        List.append_nil]
    have hfil2 : (imps ++ others).filter (fun s => !isImportDecl s) = others := by
      rw [List.filter_append,
        List.filter_eq_nil_iff.mpr (fun a ha => by rw [hImps a ha]; simp),
        List.filter_eq_self.mpr (fun a ha => by rw [hOthers a ha]; rfl),
        List.nil_append]
    have hfind : findMetadataImportEntry (importLookupIdent pk prod ck fk) imps
        = Except.ok none := findMetadataImportEntry_none _ imps hWF hNo
    rw [addAdapterMetadataImport_eq]
    show Except.bind (findMetadataImportEntry (importLookupIdent pk prod ck fk)
      ((imps ++ others).filter isImportDecl)) _ = _
    rw [hfil1, hfind]
    show Except.ok (Program.mk
      (imps ++ [buildImportAdapterMetadataEntry pk pid prod ck cn fk] ++
        (imps ++ others).filter (fun s => !isImportDecl s))) = _
    rw [hfil2]
  · rfl

/-- Claim C7 counterexample: a registry file containing no variable
declarator named `MetadataFiles` at all does not make the transform raise:
the edit completes and the file is rewritten with only the import added,
contrary to the claim that such a file is fatal. -/
theorem missing_metadatafiles_no_error_cex :
    applyRegistryEdits (Program.mk [Statement.otherStmt 0])
        "AaveV2" "aave-v2" "stable-debt-token" "Ethereum" "ethereum" "stable-debt-token-v2"
      = Except.ok (Program.mk
          [buildImportAdapterMetadataEntry
              "AaveV2" "aave-v2" "stable-debt-token" "Ethereum" "ethereum" "stable-debt-token-v2",
           Statement.otherStmt 0]) := rfl

/-- Claim C7 (amended): when a variable declarator named `MetadataFiles`
exists but its initializer is not the expected new-map-from-array shape, the
registry-entry edit is fatal: it raises the `Incorrectly typed MetadataFiles`
error (at the declarator visit) rather than completing; a file with no
`MetadataFiles` declarator at all, by contrast, completes with only the new
statement added (see the counterexample). -/
theorem malformed_metadatafiles_entry_edit_fatal (d : VariableDeclarator)
    (pk prod ck fk : String)
    (hm : isMetadataFilesDecl d = true) (hb : initWellShaped d = false) :
    addAdapterMetadataEntry d pk prod ck fk
        = Except.error Err.incorrectlyTypedMetadataFiles ∧
      transformDeclarator pk prod ck fk d
        = Except.error Err.incorrectlyTypedMetadataFiles :=
  ⟨addAdapterMetadataEntry_error_of_bad d pk prod ck fk hb,
   transformDeclarator_error_of_bad pk prod ck fk d hm hb⟩

/-- Claim C8: Key derivation is a pure, deterministic function — the
identifier strings written at the import-lookup, import-declaration,
registry-entry-lookup and registry-entry-value sites all coincide and equal
`protocolKey ++ pascalCase productId ++ chainKey ++ pascalCase fileKey`, and
the artifact path equals a fixed prefix followed by the template
`adapters/<protocolId>/products/<productId>/metadata/<chainName>.<fileKey>.json`
(so it ends with the template); being Lean functions of their arguments, the
derivations return byte-identical results on every invocation. -/
theorem key_derivation_deterministic (pk pid prod ck fk : String) (cid : Nat) :
    importLookupIdent pk prod ck fk = genIdent pk prod ck fk ∧
    importDeclIdent pk prod ck fk = genIdent pk prod ck fk ∧
    entryLookupIdent pk prod ck fk = genIdent pk prod ck fk ∧
    entryValueIdent pk prod ck fk = genIdent pk prod ck fk ∧
    genIdent pk prod ck fk = pk ++ pascalCase prod ++ ck ++ pascalCase fk ∧
    metadataFilePath (FileDetails.mk pid prod cid fk)
      = "./packages/adapters-library/src/" ++ artifactPathTemplate pid prod cid fk := by
  refine ⟨rfl, rfl, rfl, rfl, rfl, ?_⟩
  simp only [metadataFilePath, artifactPathTemplate, ← String.append_assoc]
  rfl

theorem resolveMetadata_none_of_notImplemented (a : Adapter)
    (h1 : a.version = 2 → a.getProtocolTokens = CapOutcome.notImplemented)
    (h2 : a.isMetadataBuilder = true → a.buildMetadata = CapOutcome.notImplemented) :
    resolveMetadata a = Except.ok none := by
  unfold resolveMetadata
  by_cases hv : a.version = 2
  · cases hb : a.isMetadataBuilder with
    | true =>
      simp only [hv, if_pos, h1 hv, hb, h2 hb, if_true]
      rfl
    | false =>
      simp only [hv, if_pos, h1 hv, hb, Bool.false_eq_true, if_false]
      rfl
  · cases hb : a.isMetadataBuilder with
    | true =>
      simp only [hv, if_neg, hb, h2 hb, if_true, Bool.false_eq_true, if_false]
      rfl
    | false =>
      simp only [hv, if_neg, hb, Bool.false_eq_true, if_false]
      rfl

theorem processAdapters_cons (validator : Json → List String) (st : RunState)
    (a : Adapter) (rest : List Adapter) :
    processAdapters validator st (a :: rest)
      = match resolveMetadata a with
        | Except.error e => (st, RunEnd.thrown e)
        | Except.ok none => processAdapters validator st rest
        | Except.ok (some (metadata, fd)) =>
          let invalidAddresses := validator metadata
          if 0 < invalidAddresses.length then
            (RunState.mk st.artifacts st.registry
              (st.errorLog ++ checksumReport invalidAddresses), RunEnd.gateAbort)
          else
            let artifacts1 := writeMetadataToFile st.artifacts fd metadata
            match addStaticImport st.registry fd with
            | Except.error e =>
              (RunState.mk artifacts1 st.registry st.errorLog, RunEnd.thrown e)
            | Except.ok registry1 =>
              processAdapters validator (RunState.mk artifacts1 registry1 st.errorLog) rest
      := rfl

theorem processChains_cons (validator : Json → List String) (cfg : BuildConfig)
    (st : RunState) (chainId : Nat) (adapters : List Adapter)
    (rest : List (Nat × List Adapter)) :
    processChains validator cfg st ((chainId, adapters) :: rest)
      = if chainFilteredOut cfg.filterChainIds chainId then
          processChains validator cfg st rest
        else if !(cfg.providers chainId) then
          (st, RunEnd.thrown (Err.providerMissing chainId))
        else
          match processAdapters validator st adapters with
          | (st1, RunEnd.completed) => processChains validator cfg st1 rest
          | (st1, e) => (st1, e)
      := rfl

theorem processProtocols_cons (validator : Json → List String) (cfg : BuildConfig)
    (st : RunState) (protocolId : String)
    (supportedChains : List (Nat × List Adapter))
    (rest : List (String × List (Nat × List Adapter))) :
    processProtocols validator cfg st ((protocolId, supportedChains) :: rest)
      = if protocolFilteredOut cfg.filterProtocolIds protocolId then
          processProtocols validator cfg st rest
        else
          match processChains validator cfg st supportedChains with
          | (st1, RunEnd.completed) => processProtocols validator cfg st1 rest
          | (st1, e) => (st1, e)
      := rfl

/-- Claim C9: NotImplemented recovery and partial-failure isolation — when
every metadata-producing capability an adapter exposes rejects with
`NotImplementedError`, the orchestrator treats it as nothing to register and
continues with the next adapter from the same state; when resolving the
adapter's metadata rejects with any other error, the error propagates: the
run stops with exactly the state accumulated so far (earlier adapters'
artifacts and registry entries remain committed) and the later adapters are
never examined. -/
theorem notimplemented_skip_and_error_stops (validator : Json → List String)
    (st : RunState) (a : Adapter) (post : List Adapter) :
    ((a.version = 2 → a.getProtocolTokens = CapOutcome.notImplemented) →
      (a.isMetadataBuilder = true → a.buildMetadata = CapOutcome.notImplemented) →
      processAdapters validator st (a :: post) = processAdapters validator st post) ∧
    (∀ e, resolveMetadata a = Except.error e →
      processAdapters validator st (a :: post) = (st, RunEnd.thrown e)) := by
  constructor
  · intro h1 h2
    have hres := resolveMetadata_none_of_notImplemented a h1 h2
    rw [processAdapters_cons, hres]
  · intro e hres
    rw [processAdapters_cons, hres]

/-- Claim C5 counterexample: a single-adapter run in which the registry edit
fails fatally with the `Incorrectly typed MetadataFiles` error still leaves
the adapter's artifact JSON file written on disk — `writeMetadataToFile` runs
before `addStaticImport` and nothing rolls it back — contradicting the claim
that no artifact is persisted for the failing unit of work. -/
theorem artifact_persists_on_registry_failure_cex :
    processAdapters (fun _ => [])
        (RunState.mk []
          (Program.mk [Statement.varDecl
            [VariableDeclarator.mk (Expr.identE (Ident.mk "MetadataFiles"))
              (some (Expr.otherExpr 0))]]) [])
        [Adapter.mk 2
          (CapOutcome.produced (Json.obj [])
            (FileDetails.mk "aave-v2" "stable-debt-token" 1 "stable-debt-token-v2"))
          false CapOutcome.notImplemented]
      = (RunState.mk
          [(metadataFilePath
              (FileDetails.mk "aave-v2" "stable-debt-token" 1 "stable-debt-token-v2"),
            Json.obj [])]
          (Program.mk [Statement.varDecl
            [VariableDeclarator.mk (Expr.identE (Ident.mk "MetadataFiles"))
              (some (Expr.otherExpr 0))]]) [],
         RunEnd.thrown Err.incorrectlyTypedMetadataFiles) := rfl

/-- Claim C5 (amended): when an adapter's registration fails fatally in the
registry edit, the registry file and error log are untouched and the run
stops before any later adapter, with earlier adapters' artifacts preserved
inside the accumulated state — but the failing adapter's own artifact file,
written just before the registry edit, does remain on disk. -/
theorem registry_failure_keeps_artifact (validator : Json → List String)
    (st : RunState) (a : Adapter) (post : List Adapter)
    (m : Json) (fd : FileDetails) (e : Err)
    (hres : resolveMetadata a = Except.ok (some (m, fd)))
    (hval : validator m = [])
    (hreg : addStaticImport st.registry fd = Except.error e) :
    processAdapters validator st (a :: post)
      = (RunState.mk (writeMetadataToFile st.artifacts fd m) st.registry st.errorLog,
         RunEnd.thrown e) := by
  rw [processAdapters_cons, hres]
  simp [hval, hreg]

/-- Claim C3: Checksum gate — when the next adapter in the enumeration yields
a payload with a non-empty invalid-address report, the whole command returns:
all offending values are reported together on the error log, the artifact is
not written, the registry is untouched, and neither the remaining adapters of
the current chain nor any later chain or protocol is processed. -/
theorem checksum_gate_aborts_run (validator : Json → List String)
    (cfg : BuildConfig) (st : RunState) (protocolId : String) (chainId : Nat)
    (a : Adapter) (post : List Adapter) (chains2 : List (Nat × List Adapter))
    (protos2 : List (String × List (Nat × List Adapter)))
    (m : Json) (fd : FileDetails)
    (hpf : protocolFilteredOut cfg.filterProtocolIds protocolId = false)
    (hcf : chainFilteredOut cfg.filterChainIds chainId = false)
    (hprov : cfg.providers chainId = true)
    (hres : resolveMetadata a = Except.ok (some (m, fd)))
    (hinv : validator m ≠ []) :
    processProtocols validator cfg st
        ((protocolId, (chainId, a :: post) :: chains2) :: protos2)
      = (RunState.mk st.artifacts st.registry (st.errorLog ++ checksumReport (validator m)),
         RunEnd.gateAbort) := by
  have hlen : 0 < (validator m).length := List.length_pos.mpr hinv
  have hA : processAdapters validator st (a :: post)
      = (RunState.mk st.artifacts st.registry (st.errorLog ++ checksumReport (validator m)),
         RunEnd.gateAbort) := by
    rw [processAdapters_cons, hres]
    simp [hlen]
  rw [processProtocols_cons, hpf]
  simp only [Bool.false_eq_true, if_false]
  rw [processChains_cons, hcf, hprov]
  simp only [Bool.false_eq_true, if_false, Bool.not_true]
  rw [hA]

theorem findMetadataImportEntry_error (gid src2 : String) :
    ∀ (pre rest : List Statement),
      (∀ s ∈ pre, importHasSpecifier s = true ∧ importBindsIdent gid s = false) →
      findMetadataImportEntry gid (pre ++ Statement.importDecl [] src2 :: rest)
        = Except.error Err.typeError := by
  intro pre
  induction pre with
  | nil => intro rest _; rfl
  | cons x t ih =>
    intro rest hpre
    have ihr := ih rest (fun s hs => hpre s (List.mem_cons_of_mem _ hs))
    obtain ⟨hx1, hx2⟩ := hpre x (List.mem_cons_self _ _)
    match x with
    | Statement.importDecl [] src =>
      simp [importHasSpecifier] at hx1
    | Statement.importDecl (s :: restSpecs) src =>
      have hb2 : ¬ (s.localId.map Ident.name) = some gid := by
        match hs : s.localId with
        | none => simp [hs]
        | some i =>
          simp [importBindsIdent, hs] at hx2
          simp [hs, hx2]
      simp only [List.cons_append]
      simp [findMetadataImportEntry, hb2, ihr]
    | Statement.varDecl ds =>
      simp only [List.cons_append]
      simp [findMetadataImportEntry, ihr]
    | Statement.otherStmt t2 =>
      simp only [List.cons_append]
      simp [findMetadataImportEntry, ihr]

/-- Claim C10 counterexample: a registry file that does contain an import
declaration with an empty specifier list need not raise a TypeError — when
an importDecl binding the generated identifier appears earlier, the `find`
short-circuits and the whole transform completes — contradicting the claim
that every such file makes the lookup throw before any edit or write. -/
theorem empty_specifier_unreached_cex :
    applyRegistryEdits
        (Program.mk
          [Statement.importDecl
            [ImportSpecifier.mk (some (Ident.mk
              (genIdent "AaveV2" "stable-debt-token" "Ethereum" "stable-debt-token-v2")))]
            "../../a.json",
           Statement.importDecl [] "./side-effect"])
        "AaveV2" "aave-v2" "stable-debt-token" "Ethereum" "ethereum" "stable-debt-token-v2"
      = Except.ok (Program.mk
          [Statement.importDecl
            [ImportSpecifier.mk (some (Ident.mk
              (genIdent "AaveV2" "stable-debt-token" "Ethereum" "stable-debt-token-v2")))]
            "../../a.json",
           Statement.importDecl [] "./side-effect"]) := rfl

/-- Claim C10 (amended): the import lookup is partial — when an
empty-specifier import is scanned before any import binding the generated
identifier, the unguarded `specifiers[0].local` dereference throws a
TypeError before any edit or write (the transform errors and the disk state
is unchanged); and the lookup is total on every program whose import
declarations all have at least one specifier. -/
theorem empty_specifier_lookup_partial (prog : Program)
    (pre rest : List Statement) (src2 : String) (pk pid prod ck cn fk : String)
    (hfil : prog.body.filter isImportDecl = pre ++ Statement.importDecl [] src2 :: rest)
    (hpre : ∀ s ∈ pre, importHasSpecifier s = true ∧
      importBindsIdent (genIdent pk prod ck fk) s = false) :
    applyRegistryEdits prog pk pid prod ck cn fk = Except.error Err.typeError ∧
    runRegistryTransform prog pk pid prod ck cn fk = prog ∧
    (∀ q : Program, (∀ s ∈ q.body, importHasSpecifier s = true) →
      ∃ r, findMetadataImportEntry (genIdent pk prod ck fk) (q.body.filter isImportDecl)
        = Except.ok r) := by
  have hfind : findMetadataImportEntry (importLookupIdent pk prod ck fk)
      (prog.body.filter isImportDecl) = Except.error Err.typeError := by
    rw [importLookupIdent_eq, hfil]
    exact findMetadataImportEntry_error _ _ pre rest hpre
  have h1 : applyRegistryEdits prog pk pid prod ck cn fk = Except.error Err.typeError := by
    rw [applyRegistryEdits_eq, addAdapterMetadataImport_eq, hfind]
    rfl
  refine ⟨h1, by unfold runRegistryTransform; rw [h1], ?_⟩
  intro q hq
  exact findMetadataImportEntry_total _ _ (fun t ht => hq t (List.mem_filter.mp ht).1)

theorem exceptBind_ok {α β : Type} (x : α) (f : α → Except Err β) :
    Except.bind (Except.ok x) f = f x := rfl

theorem entryKeyFn_eq_of_matches (g : String) (x : Expr)
    (h : entryMatches g x = true) : entryKeyFn x = g := by
  match x with
  | Expr.arrayExpr elements =>
    match elements with
    | [] => simp [entryMatches] at h
    | [e0] => simp [entryMatches] at h
    | e0 :: e1 :: e2 :: r => simp [entryMatches] at h
    | [e0, e1] =>
      match e1 with
      | Expr.identE i =>
        have hg : i.name = g := by simpa [entryMatches] using h
        simp [entryKeyFn, hg]
      | Expr.stringLit s2 => simp [entryMatches] at h
      | Expr.arrayExpr l2 => simp [entryMatches] at h
      | Expr.newExpr c2 a2 => simp [entryMatches] at h
      | Expr.callExpr c2 a2 => simp [entryMatches] at h
      | Expr.memberExpr o2 p2 => simp [entryMatches] at h
      | Expr.objectExpr p2 => simp [entryMatches] at h
      | Expr.otherExpr t2 => simp [entryMatches] at h
  | Expr.identE i => simp [entryMatches] at h
  | Expr.stringLit s2 => simp [entryMatches] at h
  | Expr.newExpr c a2 => simp [entryMatches] at h
  | Expr.callExpr c a2 => simp [entryMatches] at h
  | Expr.memberExpr o p => simp [entryMatches] at h
  | Expr.objectExpr p => simp [entryMatches] at h
  | Expr.otherExpr t => simp [entryMatches] at h

theorem find_entry_none_of_not_mem (g : String) (es : List Expr)
    (hnm : g ∉ es.map entryKeyFn) :
    es.find? (entryMatches g) = none := by
  apply List.find?_eq_none.mpr
  intro x hx hmx
  exact hnm (List.mem_map.mpr ⟨x, hx, entryKeyFn_eq_of_matches g x hmx⟩)

theorem addAdapterMetadataEntry_insert (idE callee : Expr) (es restArgs : List Expr)
    (pk prod ck fk : String)
    (hfind : es.find? (entryMatches (entryLookupIdent pk prod ck fk)) = none) :
    addAdapterMetadataEntry
        (VariableDeclarator.mk idE (some (Expr.newExpr callee (Expr.arrayExpr es :: restArgs))))
        pk prod ck fk
      = Except.ok (VariableDeclarator.mk idE (some (Expr.newExpr callee
          (Expr.arrayExpr (sortEntries (es ++ [buildNewMetadataEntry pk prod ck fk]) entryKeyFn)
            :: restArgs)))) := by
  simp only [addAdapterMetadataEntry]
  rw [hfind]

theorem entryMatches_newEntry_false (g pk prod ck fk : String)
    (hne : ¬ genIdent pk prod ck fk = g) :
    entryMatches g (buildNewMetadataEntry pk prod ck fk) = false := by
  have h0 : entryMatches g (buildNewMetadataEntry pk prod ck fk)
      = (entryValueIdent pk prod ck fk == g) := rfl
  rw [h0, entryValueIdent_eq]
  exact beq_eq_false_iff_ne.mpr hne

theorem entryKeyFn_newEntry (pk prod ck fk : String) :
    entryKeyFn (buildNewMetadataEntry pk prod ck fk) = genIdent pk prod ck fk := rfl

/-- Claim C2: Registration is order-independent — on a declarator of the
expected shape whose entries are well-formed pairs with distinct value
identifiers, registering key A then key B yields exactly the same declarator
as registering B then A, because each insertion re-sorts the whole array by
the generated identifier name. The hypothesis that the two generated
identifiers differ is the data-model invariant that identifiers are
syntactically unique per MetadataKey. -/
theorem registration_order_independent
    (idE callee : Expr) (es restArgs : List Expr)
    (pkA prodA ckA fkA pkB prodB ckB fkB : String)
    (_hwf : ∀ x ∈ es, isWellFormedPair x = true)
    (hnd : (es.map entryKeyFn).Nodup)
    (hA : genIdent pkA prodA ckA fkA ∉ es.map entryKeyFn)
    (hB : genIdent pkB prodB ckB fkB ∉ es.map entryKeyFn)
    (hAB : genIdent pkA prodA ckA fkA ≠ genIdent pkB prodB ckB fkB) :
    Except.bind (addAdapterMetadataEntry
        (VariableDeclarator.mk idE (some (Expr.newExpr callee (Expr.arrayExpr es :: restArgs))))
        pkA prodA ckA fkA)
      (fun d1 => addAdapterMetadataEntry d1 pkB prodB ckB fkB)
    = Except.bind (addAdapterMetadataEntry
        (VariableDeclarator.mk idE (some (Expr.newExpr callee (Expr.arrayExpr es :: restArgs))))
        pkB prodB ckB fkB)
      (fun d2 => addAdapterMetadataEntry d2 pkA prodA ckA fkA) := by
  have hfA : es.find? (entryMatches (entryLookupIdent pkA prodA ckA fkA)) = none := by
    rw [entryLookupIdent_eq]
    exact find_entry_none_of_not_mem _ es hA
  have hfB : es.find? (entryMatches (entryLookupIdent pkB prodB ckB fkB)) = none := by
    rw [entryLookupIdent_eq]
    exact find_entry_none_of_not_mem _ es hB
  have hfB2 : (sortEntries (es ++ [buildNewMetadataEntry pkA prodA ckA fkA]) entryKeyFn).find?
      (entryMatches (entryLookupIdent pkB prodB ckB fkB)) = none := by
    rw [entryLookupIdent_eq]
    apply List.find?_eq_none.mpr
    intro x hx
    rcases List.mem_append.mp ((sortEntries_perm _ _).subset hx) with hxe | hxa
    · intro hm
      exact hB (List.mem_map.mpr ⟨x, hxe, entryKeyFn_eq_of_matches _ x hm⟩)
    · have hxeq : x = buildNewMetadataEntry pkA prodA ckA fkA := by simpa using hxa
      rw [hxeq, entryMatches_newEntry_false _ pkA prodA ckA fkA hAB]
      simp
  have hfA2 : (sortEntries (es ++ [buildNewMetadataEntry pkB prodB ckB fkB]) entryKeyFn).find?
      (entryMatches (entryLookupIdent pkA prodA ckA fkA)) = none := by
    rw [entryLookupIdent_eq]
    apply List.find?_eq_none.mpr
    intro x hx
    rcases List.mem_append.mp ((sortEntries_perm _ _).subset hx) with hxe | hxa
    · intro hm
      exact hA (List.mem_map.mpr ⟨x, hxe, entryKeyFn_eq_of_matches _ x hm⟩)
    · have hxeq : x = buildNewMetadataEntry pkB prodB ckB fkB := by simpa using hxa
      rw [hxeq, entryMatches_newEntry_false _ pkB prodB ckB fkB (fun h => hAB h.symm)]
      simp
  have hperm1 : (sortEntries (sortEntries (es ++ [buildNewMetadataEntry pkA prodA ckA fkA])
        entryKeyFn ++ [buildNewMetadataEntry pkB prodB ckB fkB]) entryKeyFn).Perm
      (es ++ [buildNewMetadataEntry pkA prodA ckA fkA, buildNewMetadataEntry pkB prodB ckB fkB]) := by
    have h1 := (sortEntries_perm (sortEntries (es ++ [buildNewMetadataEntry pkA prodA ckA fkA])
      entryKeyFn ++ [buildNewMetadataEntry pkB prodB ckB fkB]) entryKeyFn).trans
      ((sortEntries_perm (es ++ [buildNewMetadataEntry pkA prodA ckA fkA])
        entryKeyFn).append_right [buildNewMetadataEntry pkB prodB ckB fkB])
    have he : (es ++ [buildNewMetadataEntry pkA prodA ckA fkA]) ++
        [buildNewMetadataEntry pkB prodB ckB fkB]
      = es ++ [buildNewMetadataEntry pkA prodA ckA fkA,
          buildNewMetadataEntry pkB prodB ckB fkB] := by simp
    exact he ▸ h1
  have hperm2 : (sortEntries (sortEntries (es ++ [buildNewMetadataEntry pkB prodB ckB fkB])
        entryKeyFn ++ [buildNewMetadataEntry pkA prodA ckA fkA]) entryKeyFn).Perm
      (es ++ [buildNewMetadataEntry pkA prodA ckA fkA, buildNewMetadataEntry pkB prodB ckB fkB]) := by
    have h1 := (sortEntries_perm (sortEntries (es ++ [buildNewMetadataEntry pkB prodB ckB fkB])
      entryKeyFn ++ [buildNewMetadataEntry pkA prodA ckA fkA]) entryKeyFn).trans
      ((sortEntries_perm (es ++ [buildNewMetadataEntry pkB prodB ckB fkB])
        entryKeyFn).append_right [buildNewMetadataEntry pkA prodA ckA fkA])
    have he : (es ++ [buildNewMetadataEntry pkB prodB ckB fkB]) ++
        [buildNewMetadataEntry pkA prodA ckA fkA]
      = es ++ [buildNewMetadataEntry pkB prodB ckB fkB,
          buildNewMetadataEntry pkA prodA ckA fkA] := by simp
    have hsw : (es ++ [buildNewMetadataEntry pkB prodB ckB fkB,
        buildNewMetadataEntry pkA prodA ckA fkA]).Perm
      (es ++ [buildNewMetadataEntry pkA prodA ckA fkA,
        buildNewMetadataEntry pkB prodB ckB fkB]) :=
      List.Perm.append_left es
        (List.Perm.swap (buildNewMetadataEntry pkA prodA ckA fkA)
          (buildNewMetadataEntry pkB prodB ckB fkB) [])
    exact (he ▸ h1).trans hsw
  have hkeys : ((es ++ [buildNewMetadataEntry pkA prodA ckA fkA,
      buildNewMetadataEntry pkB prodB ckB fkB]).map entryKeyFn).Nodup := by
    rw [List.map_append]
    simp only [List.map_cons, List.map_nil, entryKeyFn_newEntry]
    apply List.Nodup.append hnd
    · exact List.nodup_cons.mpr ⟨by simp [hAB], List.nodup_singleton _⟩
    · intro x hx hx2
      rcases (by simpa using hx2 : x = genIdent pkA prodA ckA fkA ∨
          x = genIdent pkB prodB ckB fkB) with rfl | rfl
      · exact hA hx
      · exact hB hx
  have hndxs : ((sortEntries (sortEntries (es ++ [buildNewMetadataEntry pkA prodA ckA fkA])
      entryKeyFn ++ [buildNewMetadataEntry pkB prodB ckB fkB]) entryKeyFn).map entryKeyFn).Nodup :=
    ((hperm1.map entryKeyFn).symm).nodup hkeys
  have hsorteq := sorted_perm_eq_of_nodup_keys entryKeyFn _ _
    (hperm1.trans hperm2.symm)
    (sortEntries_sorted _ entryKeyFn) (sortEntries_sorted _ entryKeyFn) hndxs
  rw [addAdapterMetadataEntry_insert idE callee es restArgs pkA prodA ckA fkA hfA,
    addAdapterMetadataEntry_insert idE callee es restArgs pkB prodB ckB fkB hfB]
  simp only [exceptBind_ok]
  rw [addAdapterMetadataEntry_insert idE callee _ restArgs pkB prodB ckB fkB hfB2,
    addAdapterMetadataEntry_insert idE callee _ restArgs pkA prodA ckA fkA hfA2]
  rw [hsorteq]

/-- Concrete generated identifier used by the witness scenarios. -/
def wGid : String := genIdent "AaveV2" "stable-debt-token" "Ethereum" "stable-debt-token-v2"

/-- Witness registry file for idempotence: the identifier is already imported
and already present as a registry pair. -/
def c1Prog : Program := Program.mk
  [Statement.importDecl [ImportSpecifier.mk (some (Ident.mk wGid))] "../../a.json",
   Statement.varDecl [VariableDeclarator.mk (Expr.identE (Ident.mk "MetadataFiles"))
     (some (Expr.newExpr (Expr.otherExpr 1)
       [Expr.arrayExpr [Expr.arrayExpr [Expr.otherExpr 5, Expr.identE (Ident.mk wGid)]]]))],
   Statement.otherStmt 7]

theorem registration_idempotent_witness :
    (∀ s ∈ c1Prog.body, importHasSpecifier s = true) ∧
    c1Prog.body.any (importBindsIdent wGid) = true ∧
    (∀ s ∈ c1Prog.body, stmtEntriesRegistered wGid s = true) ∧
    applyRegistryEdits c1Prog "AaveV2" "aave-v2" "stable-debt-token" "Ethereum" "ethereum"
      "stable-debt-token-v2" = Except.ok c1Prog :=
  ⟨by decide, by decide, by decide,
   registration_idempotent c1Prog "AaveV2" "aave-v2" "stable-debt-token" "Ethereum" "ethereum"
     "stable-debt-token-v2" (by decide) (by decide) (by decide)⟩

/-- Witness registry-array content for order independence: one existing
well-formed pair with an unrelated value identifier. -/
def c2Entries : List Expr :=
  [Expr.arrayExpr [Expr.otherExpr 0, Expr.identE (Ident.mk "Zed")]]

theorem registration_order_independent_witness :
    (∀ x ∈ c2Entries, isWellFormedPair x = true) ∧
    (c2Entries.map entryKeyFn).Nodup ∧
    genIdent "AaveV2" "stable-debt-token" "Ethereum" "stable-debt-token-v2"
      ∉ c2Entries.map entryKeyFn ∧
    genIdent "Stargate" "pool" "Optimism" "pool-v1" ∉ c2Entries.map entryKeyFn ∧
    genIdent "AaveV2" "stable-debt-token" "Ethereum" "stable-debt-token-v2"
      ≠ genIdent "Stargate" "pool" "Optimism" "pool-v1" ∧
    Except.bind (addAdapterMetadataEntry
        (VariableDeclarator.mk (Expr.identE (Ident.mk "MetadataFiles"))
          (some (Expr.newExpr (Expr.otherExpr 1) (Expr.arrayExpr c2Entries :: []))))
        "AaveV2" "stable-debt-token" "Ethereum" "stable-debt-token-v2")
      (fun d1 => addAdapterMetadataEntry d1 "Stargate" "pool" "Optimism" "pool-v1")
    = Except.bind (addAdapterMetadataEntry
        (VariableDeclarator.mk (Expr.identE (Ident.mk "MetadataFiles"))
          (some (Expr.newExpr (Expr.otherExpr 1) (Expr.arrayExpr c2Entries :: []))))
        "Stargate" "pool" "Optimism" "pool-v1")
      (fun d2 => addAdapterMetadataEntry d2 "AaveV2" "stable-debt-token" "Ethereum"
        "stable-debt-token-v2") :=
  ⟨by decide, by decide, by decide, by decide, by decide,
   registration_order_independent (Expr.identE (Ident.mk "MetadataFiles")) (Expr.otherExpr 1)
     c2Entries [] "AaveV2" "stable-debt-token" "Ethereum" "stable-debt-token-v2"
     "Stargate" "pool" "Optimism" "pool-v1"
     (by decide) (by decide) (by decide) (by decide) (by decide)⟩

/-- Witness file details shared by the orchestrator scenarios. -/
def wFd : FileDetails := FileDetails.mk "aave-v2" "stable-debt-token" 1 "stable-debt-token-v2"

/-- Witness adapter producing a fixed payload through the version-2 path. -/
def wAdapter : Adapter :=
  Adapter.mk 2 (CapOutcome.produced (Json.str "x") wFd) false CapOutcome.notImplemented

/-- Witness configuration: no filters, every chain has a provider. -/
def wCfg : BuildConfig := BuildConfig.mk none none (fun _ => true)

/-- Witness starting state with an empty registry program. -/
def wSt : RunState := RunState.mk [] (Program.mk []) []

theorem checksum_gate_aborts_run_witness :
    protocolFilteredOut wCfg.filterProtocolIds "aave-v2" = false ∧
    chainFilteredOut wCfg.filterChainIds 1 = false ∧
    wCfg.providers 1 = true ∧
    resolveMetadata wAdapter = Except.ok (some (Json.str "x", wFd)) ∧
    (fun (_ : Json) => ["0xbad"]) (Json.str "x") ≠ [] ∧
    processProtocols (fun _ => ["0xbad"]) wCfg wSt
        [("aave-v2", [(1, [wAdapter])]), ("stargate", [(1, [wAdapter])])]
      = (RunState.mk wSt.artifacts wSt.registry
          (wSt.errorLog ++ checksumReport ["0xbad"]), RunEnd.gateAbort) :=
  ⟨rfl, rfl, rfl, rfl, by decide,
   checksum_gate_aborts_run (fun _ => ["0xbad"]) wCfg wSt "aave-v2" 1 wAdapter []
     [] [("stargate", [(1, [wAdapter])])] (Json.str "x") wFd rfl rfl rfl rfl (by decide)⟩

/-- Witness registry file whose `MetadataFiles` declarator has a malformed
initializer. -/
def c4Prog : Program := Program.mk
  [Statement.importDecl [ImportSpecifier.mk (some (Ident.mk "Other"))] "./o",
   Statement.varDecl [VariableDeclarator.mk (Expr.identE (Ident.mk "MetadataFiles"))
     (some (Expr.otherExpr 0))]]

theorem structural_mismatch_no_write_witness :
    (∀ s ∈ c4Prog.body, importHasSpecifier s = true) ∧
    (∃ s ∈ c4Prog.body, stmtHasBadMetadataFiles s = true) ∧
    (applyRegistryEdits c4Prog "AaveV2" "aave-v2" "stable-debt-token" "Ethereum" "ethereum"
        "stable-debt-token-v2" = Except.error Err.incorrectlyTypedMetadataFiles ∧
      runRegistryTransform c4Prog "AaveV2" "aave-v2" "stable-debt-token" "Ethereum" "ethereum"
        "stable-debt-token-v2" = c4Prog) :=
  ⟨by decide, by decide,
   structural_mismatch_no_write c4Prog "AaveV2" "aave-v2" "stable-debt-token" "Ethereum"
     "ethereum" "stable-debt-token-v2" (by decide) (by decide)⟩

/-- Witness bad registry for the amended C5 claim. -/
def c5Registry : Program := Program.mk
  [Statement.varDecl [VariableDeclarator.mk (Expr.identE (Ident.mk "MetadataFiles"))
    (some (Expr.otherExpr 0))]]

/-- Witness state carrying one earlier artifact and one earlier log line. -/
def c5St : RunState := RunState.mk [("earlier", Json.nullJ)] c5Registry ["earlier-log"]

theorem registry_failure_keeps_artifact_witness :
    resolveMetadata wAdapter = Except.ok (some (Json.str "x", wFd)) ∧
    (fun (_ : Json) => ([] : List String)) (Json.str "x") = [] ∧
    addStaticImport c5St.registry wFd = Except.error Err.incorrectlyTypedMetadataFiles ∧
    processAdapters (fun _ => []) c5St [wAdapter]
      = (RunState.mk (writeMetadataToFile c5St.artifacts wFd (Json.str "x"))
          c5St.registry c5St.errorLog,
         RunEnd.thrown Err.incorrectlyTypedMetadataFiles) :=
  ⟨rfl, rfl, rfl,
   registry_failure_keeps_artifact (fun _ => []) c5St wAdapter [] (Json.str "x") wFd
     Err.incorrectlyTypedMetadataFiles rfl rfl rfl⟩

theorem import_appended_after_import_run_witness :
    (∀ s ∈ [Statement.importDecl [ImportSpecifier.mk (some (Ident.mk "Other"))] "./o"],
      isImportDecl s = true) ∧
    (∀ s ∈ [Statement.otherStmt 3], isImportDecl s = false) ∧
    (∀ s ∈ [Statement.importDecl [ImportSpecifier.mk (some (Ident.mk "Other"))] "./o"],
      importHasSpecifier s = true) ∧
    (∀ s ∈ [Statement.importDecl [ImportSpecifier.mk (some (Ident.mk "Other"))] "./o"],
      importBindsIdent wGid s = false) ∧
    (addAdapterMetadataImport (Program.mk
          ([Statement.importDecl [ImportSpecifier.mk (some (Ident.mk "Other"))] "./o"] ++
            [Statement.otherStmt 3]))
        "AaveV2" "aave-v2" "stable-debt-token" "Ethereum" "ethereum" "stable-debt-token-v2"
      = Except.ok (Program.mk
          ([Statement.importDecl [ImportSpecifier.mk (some (Ident.mk "Other"))] "./o"] ++
            [buildImportAdapterMetadataEntry "AaveV2" "aave-v2" "stable-debt-token" "Ethereum"
              "ethereum" "stable-debt-token-v2"] ++ [Statement.otherStmt 3])) ∧
      buildImportAdapterMetadataEntry "AaveV2" "aave-v2" "stable-debt-token" "Ethereum"
          "ethereum" "stable-debt-token-v2"
        = Statement.importDecl [ImportSpecifier.mk (some (Ident.mk wGid))]
            ("../../adapters/" ++ "aave-v2" ++ "/products/" ++ "stable-debt-token" ++
              "/metadata/" ++ "ethereum" ++ "." ++ "stable-debt-token-v2" ++ ".json")) :=
  ⟨by decide, by decide, by decide, by decide,
   import_appended_after_import_run
     [Statement.importDecl [ImportSpecifier.mk (some (Ident.mk "Other"))] "./o"]
     [Statement.otherStmt 3]
     "AaveV2" "aave-v2" "stable-debt-token" "Ethereum" "ethereum" "stable-debt-token-v2"
     (by decide) (by decide) (by decide) (by decide)⟩

theorem malformed_metadatafiles_entry_edit_fatal_witness :
    isMetadataFilesDecl (VariableDeclarator.mk (Expr.identE (Ident.mk "MetadataFiles"))
        (some (Expr.otherExpr 0))) = true ∧
    initWellShaped (VariableDeclarator.mk (Expr.identE (Ident.mk "MetadataFiles"))
        (some (Expr.otherExpr 0))) = false ∧
    (addAdapterMetadataEntry (VariableDeclarator.mk (Expr.identE (Ident.mk "MetadataFiles"))
          (some (Expr.otherExpr 0))) "AaveV2" "stable-debt-token" "Ethereum"
          "stable-debt-token-v2"
        = Except.error Err.incorrectlyTypedMetadataFiles ∧
      transformDeclarator "AaveV2" "stable-debt-token" "Ethereum" "stable-debt-token-v2"
          (VariableDeclarator.mk (Expr.identE (Ident.mk "MetadataFiles"))
            (some (Expr.otherExpr 0)))
        = Except.error Err.incorrectlyTypedMetadataFiles) :=
  ⟨by decide, by decide,
   malformed_metadatafiles_entry_edit_fatal
     (VariableDeclarator.mk (Expr.identE (Ident.mk "MetadataFiles")) (some (Expr.otherExpr 0)))
     "AaveV2" "stable-debt-token" "Ethereum" "stable-debt-token-v2" (by decide) (by decide)⟩

/-- Witness adapter whose only capability rejects with NotImplementedError. -/
def c9SkipAdapter : Adapter :=
  Adapter.mk 2 CapOutcome.notImplemented true CapOutcome.notImplemented

/-- Witness adapter whose capability rejects with a non-NotImplemented
error. -/
def c9FailAdapter : Adapter :=
  Adapter.mk 2 (CapOutcome.failed "boom") false CapOutcome.notImplemented

theorem notimplemented_skip_and_error_stops_witness :
    processAdapters (fun _ => []) wSt [c9SkipAdapter]
        = processAdapters (fun _ => []) wSt [] ∧
    processAdapters (fun _ => []) wSt [c9FailAdapter]
        = (wSt, RunEnd.thrown (Err.adapterError "boom")) :=
  ⟨(notimplemented_skip_and_error_stops (fun _ => []) wSt c9SkipAdapter []).1
     (fun _ => rfl) (fun _ => rfl),
   (notimplemented_skip_and_error_stops (fun _ => []) wSt c9FailAdapter []).2
     (Err.adapterError "boom") rfl⟩

/-- Witness registry file whose very first import has no specifier. -/
def c10Prog : Program :=
  Program.mk [Statement.importDecl [] "./side-effect", Statement.otherStmt 0]

theorem empty_specifier_lookup_partial_witness :
    c10Prog.body.filter isImportDecl
        = [] ++ Statement.importDecl [] "./side-effect" :: [] ∧
    (∀ s ∈ ([] : List Statement), importHasSpecifier s = true ∧
      importBindsIdent wGid s = false) ∧
    (applyRegistryEdits c10Prog "AaveV2" "aave-v2" "stable-debt-token" "Ethereum" "ethereum"
        "stable-debt-token-v2" = Except.error Err.typeError ∧
      runRegistryTransform c10Prog "AaveV2" "aave-v2" "stable-debt-token" "Ethereum" "ethereum"
        "stable-debt-token-v2" = c10Prog ∧
      (∀ q : Program, (∀ s ∈ q.body, importHasSpecifier s = true) →
        ∃ r, findMetadataImportEntry wGid (q.body.filter isImportDecl) = Except.ok r)) :=
  ⟨rfl, by decide,
   empty_specifier_lookup_partial c10Prog [] [] "./side-effect"
     "AaveV2" "aave-v2" "stable-debt-token" "Ethereum" "ethereum" "stable-debt-token-v2"
     rfl (by decide)⟩

